import Mathlib

/-!
Verification of the repo-map core against its specification.

This file gives a shallow embedding, in Lean 4, of the core algorithms of the
repo-map repository (src/repo_map/core): the flight-plan verbosity resolver,
the cost model, the multi-resolution context renderer, the tag extractor, the
symbol-graph edge construction, and the budget-fitting search of
RepoMap.get_repo_map.  Pure Python functions become Lean functions; external
collaborators (tree-sitter parsing, pygments lexing, networkx PageRank, the
TreeContext excerpt renderer, the filesystem) are abstracted as explicit
oracle parameters, so every theorem quantifies over their behaviour.
Machine integers are modelled as Nat/Int (Python integers are unbounded);
Python float literals such as 0.1 and 0.15 are modelled as the exact
rationals they denote in the source text.
-/

/-! ## Python-faithful utility functions -/

/-- Token estimate used uniformly by the system: `len(text) // 4`
(src/repo_map/core/cost.py, `estimate_tokens`). -/
def estimate_tokens (text : String) : Nat :=
  text.length / 4

/-- First-occurrence deduplication, the order in which a Python `set`/`dict`
built by successive insertion enumerates distinct keys.  The `seen`
accumulator keeps the recursion structural so the kernel can evaluate it. -/
def pyDedupAux {α : Type} [DecidableEq α] (seen : List α) : List α → List α
  | [] => []
  | x :: xs =>
    if x ∈ seen then pyDedupAux seen xs
    else x :: pyDedupAux (x :: seen) xs

/-- Distinct elements of a list, first occurrences kept in order. -/
def pyDedup {α : Type} [DecidableEq α] (l : List α) : List α :=
  pyDedupAux [] l

/-- Items of Python's `collections.Counter(l)`: each distinct element paired
with its multiplicity, in first-occurrence order. -/
def counterItems {α : Type} [DecidableEq α] (l : List α) : List (α × Nat) :=
  (pyDedup l).map (fun x => (x, l.count x))

/-- Helper for `pySplitlinesChars`: splits on the line breaks actually
produced by this code base (LF, CR, CRLF), matching Python `str.splitlines`
on such inputs. -/
def pySplitlinesAux : List Char → List Char → List (List Char)
  | [], acc => if acc.isEmpty then [] else [acc.reverse]
  | '\r' :: '\n' :: rest, acc => acc.reverse :: pySplitlinesAux rest []
  | '\n' :: rest, acc => acc.reverse :: pySplitlinesAux rest []
  | '\r' :: rest, acc => acc.reverse :: pySplitlinesAux rest []
  | c :: rest, acc => pySplitlinesAux rest (c :: acc)

/-- Python `str.splitlines` over the character list of a string. -/
def pySplitlinesChars (s : List Char) : List (List Char) :=
  pySplitlinesAux s []

/-- Final component of a path, as Python `pathlib.Path(p).name` computes it
for the ordinary relative paths this system passes in. -/
def pyBasename (p : String) : String :=
  (((p.data.splitOn '/').filter (fun c => ¬ c.isEmpty)).getLastD []).asString

/-- Python `str.startswith` over the characters of a string. -/
def pyStartswith (s pre : String) : Bool :=
  pre.data.isPrefixOf s.data

/-! ## Python fnmatch glob matching

`FlightPlan.get_verbosity_for_path` and `ContextRenderer.get_section_verbosity`
match glob patterns with the standard library's `fnmatch.fnmatch`, which on a
POSIX platform compiles the pattern to a regular expression: `*` matches any
character sequence (newlines included), `?` any single character, `[...]` a
character class with optional leading `!` negation and `a-b` ranges, and an
unterminated `[` is a literal.  The matcher below implements that semantics
directly; fuel arguments keep the recursions structural so that concrete
matches evaluate inside the kernel. -/

/-- Token of a compiled glob pattern. -/
inductive GlobTok where
  | star : GlobTok
  | anyChar : GlobTok
  | lit : Char → GlobTok
  | cls : Bool → List Char → GlobTok
deriving DecidableEq

/-- Index of the bracket closing a character class, following fnmatch's scan:
a leading `!` and an immediately following `]` are part of the class body. -/
def classEnd (ps : List Char) : Option Nat :=
  let s1 := if ps.head? = some '!' then 1 else 0
  let s2 := if (ps.drop s1).head? = some ']' then s1 + 1 else s1
  match ((ps.drop s2).findIdx? (fun c => c = ']')) with
  | some k => some (s2 + k)
  | none => none

/-- Membership of a character in the body of a glob character class. -/
def classMatch (c : Char) : List Char → Bool
  | a :: '-' :: b :: rest => (decide (a ≤ c) && decide (c ≤ b)) || classMatch c rest
  | a :: rest => decide (c = a) || classMatch c rest
  | [] => false

/-- Compiles a glob pattern to tokens; `fuel` bounds the number of characters
still to consume, so `fuel = ps.length` always suffices. -/
def translateGlobAux : Nat → List Char → List GlobTok
  | 0, _ => []
  | _ + 1, [] => []
  | fuel + 1, '*' :: ps => .star :: translateGlobAux fuel ps
  | fuel + 1, '?' :: ps => .anyChar :: translateGlobAux fuel ps
  | fuel + 1, '[' :: ps =>
    match classEnd ps with
    | none => .lit '[' :: translateGlobAux fuel ps
    | some j =>
      let stuff := ps.take j
      let rest := ps.drop (j + 1)
      (match stuff with
       | '!' :: s => GlobTok.cls true s
       | s => GlobTok.cls false s) :: translateGlobAux fuel rest
  | fuel + 1, c :: ps => .lit c :: translateGlobAux fuel ps

/-- Compiled form of a glob pattern. -/
def translateGlob (ps : List Char) : List GlobTok :=
  translateGlobAux ps.length ps

/-- Matches compiled glob tokens against a character list; `fuel` bounds the
sum of the remaining token- and character-list lengths plus one, so the
initial call never exhausts it. -/
def globMatchAux : Nat → List GlobTok → List Char → Bool
  | 0, _, _ => false
  | _ + 1, [], [] => true
  | _ + 1, [], _ :: _ => false
  | fuel + 1, .star :: ts, [] => globMatchAux fuel ts []
  | fuel + 1, .star :: ts, c :: s =>
    globMatchAux fuel ts (c :: s) || globMatchAux fuel (.star :: ts) s
  | fuel + 1, .anyChar :: ts, _ :: s => globMatchAux fuel ts s
  | _ + 1, .anyChar :: _, [] => false
  | fuel + 1, .lit a :: ts, c :: s => decide (c = a) && globMatchAux fuel ts s
  | _ + 1, .lit _ :: _, [] => false
  | fuel + 1, .cls neg stuff :: ts, c :: s =>
    (classMatch c stuff != neg) && globMatchAux fuel ts s
  | _ + 1, .cls _ _ :: _, [] => false

/-- Python `fnmatch.fnmatch(name, pattern)` on a POSIX platform. -/
def pyFnmatch (name pattern : String) : Bool :=
  let ts := translateGlob pattern.data
  globMatchAux (ts.length + name.data.length + 1) ts name.data

/-! ## Verbosity levels and flight plans (src/repo_map/core/verbosity.py,
src/repo_map/core/flight_plan.py) -/

/-- The five detail tiers of `VerbosityLevel` (an `IntEnum` in the source). -/
inductive VerbosityLevel where
  | EXCLUDE : VerbosityLevel
  | EXISTENCE : VerbosityLevel
  | STRUCTURE : VerbosityLevel
  | INTERFACE : VerbosityLevel
  | IMPLEMENTATION : VerbosityLevel
deriving DecidableEq

/-- Verbosity rule for a section within a file (`SectionVerbosity`). -/
structure SectionVerbosity where
  pattern : String
  level : VerbosityLevel
deriving DecidableEq

/-- Maps a file pattern to either a file-level verbosity or a list of
section rules (`VerbosityRule`).  Pydantic validation enforces that exactly
one of the two is present; the model keeps both optional fields so that the
resolution code can be stated for arbitrary rule values, as in the source. -/
structure VerbosityRule where
  pattern : String
  level : Option VerbosityLevel
  sections : Option (List SectionVerbosity)
deriving DecidableEq

/-- Relevant fields of the `FlightPlan` value object: the token budget and
the ordered verbosity rule list. -/
structure FlightPlan where
  budget : Nat
  verbosity : List VerbosityRule
deriving DecidableEq

/-- File-level verbosity resolution of `FlightPlan.get_verbosity_for_path`:
start from IMPLEMENTATION and let every matching rule that carries a level
overwrite it (last match wins); rules carrying only sections are skipped. -/
def FlightPlan.get_verbosity_for_path (fp : FlightPlan) (rel_path : String) :
    VerbosityLevel :=
  fp.verbosity.foldl
    (fun level rule =>
      if pyFnmatch rel_path rule.pattern ∧ rule.level.isSome then
        rule.level.getD VerbosityLevel.IMPLEMENTATION
      else level)
    VerbosityLevel.IMPLEMENTATION

/-! ## Cost model (src/repo_map/core/cost.py) -/

/-- Per-file five-level cost table of `calculate_file_costs` in cost.py:
level 4 is exact, level 3 falls back to 40% and level 2 to 15% of the
level-4 count when no rendered content is supplied, level 1 is a fixed
5-token estimate, level 0 is zero.  The float products `int(l4 * 0.4)` and
`int(l4 * 0.15)` are modelled as the exact rational truncations
`l4 * 2 / 5` and `l4 * 3 / 20`. -/
def calculate_file_costs (content : String)
    (structure_content interface_content : Option String) :
    VerbosityLevel → Nat :=
  let l4 := estimate_tokens content
  let l3 := match interface_content with
    | some ic => estimate_tokens ic
    | none => l4 * 2 / 5
  let l2 := match structure_content with
    | some sc => estimate_tokens sc
    | none => l4 * 3 / 20
  fun lv => match lv with
  | .EXCLUDE => 0
  | .EXISTENCE => 5
  | .STRUCTURE => l2
  | .INTERFACE => l3
  | .IMPLEMENTATION => l4

/-- Assignment `d[k] = v` on a Python dict modelled as an association list:
an existing key keeps its position and gets the new value, a new key is
appended. -/
def dictInsert {V : Type} (k : String) (v : V) (d : List (String × V)) :
    List (String × V) :=
  if d.any (fun p => decide (p.1 = k)) then
    d.map (fun p => if p.1 = k then (k, v) else p)
  else d ++ [(k, v)]

/-- State of `CostManifest`: the budget, the per-file cost tables, and the
running total of tokens at the levels files were actually rendered at. -/
structure CostManifest where
  budget : Nat
  files : List (String × (VerbosityLevel → Nat))
  actual : Nat

/-- Fresh manifest of `CostManifest.__init__`. -/
def CostManifest.init (budget : Nat) : CostManifest :=
  { budget := budget, files := [], actual := 0 }

/-- Records a file: `CostManifest.add_file` overwrites the per-file table for
the path and unconditionally accumulates the rendered-level cost. -/
def CostManifest.add_file (m : CostManifest) (path : String)
    (costs : VerbosityLevel → Nat) (rendered_level : VerbosityLevel) :
    CostManifest :=
  { m with
    files := dictInsert path costs m.files
    actual := m.actual + costs rendered_level }

/-- Total tokens if every recorded file were rendered at the given level
(`CostManifest.total_at_level`). -/
def CostManifest.total_at_level (m : CostManifest) (level : VerbosityLevel) :
    Nat :=
  (m.files.map (fun p => p.2 level)).sum

/-! ## Tag extraction (src/repo_map/core/tags.py)

The tree-sitter and pygments collaborators are abstracted as a `TsEnv`
oracle: `lang` is `grep_ast.filename_to_lang`, `loadOk` is whether
`get_language`/`get_parser` succeed for a language, `scm` is whether
`get_scm_fname` finds a query document for a language and verbosity hint,
`captures` is the list of (capture tag, node text, node start line) triples
the structural query produces on a file's code, and `lexTokens` is the
pygments identifier-class token list (`None` when `guess_lexer_for_filename`
raises). -/

/-- Tag record of tags.py, with its exact field order. -/
structure Tag where
  rel_fname : String
  fname : String
  line : Int
  name : String
  kind : String
deriving DecidableEq

/-- Oracle bundling the external parsing collaborators of tags.py. -/
structure TsEnv where
  lang : String → Option String
  loadOk : String → Bool
  scm : String → Option VerbosityLevel → Bool
  captures : String → String → Option VerbosityLevel → List (String × String × Int)
  lexTokens : String → String → Option (List String)

/-- Definition and reference tags produced by the structural query phase of
`get_tags_from_code`: captures tagged `name.definition.*` become `def` tags,
captures tagged `name.reference.*` become `ref` tags, others are dropped. -/
def queryTags (fname rel_fname : String)
    (caps : List (String × String × Int)) : List Tag :=
  caps.filterMap (fun cap =>
    if pyStartswith cap.1 "name.definition." then
      some { rel_fname := rel_fname, fname := fname, line := cap.2.2,
             name := cap.2.1, kind := "def" }
    else if pyStartswith cap.1 "name.reference." then
      some { rel_fname := rel_fname, fname := fname, line := cap.2.2,
             name := cap.2.1, kind := "ref" }
    else none)

/-- Embedding of `get_tags_from_code`: an unsupported language, a failing
language/parser load, or a missing query document yield no tags; otherwise
the structural query's captures are classified, and when they produced at
least one definition but no reference, pygments identifier tokens are
backfilled as references at sentinel line -1. -/
def get_tags_from_code (env : TsEnv) (fname rel_fname code : String)
    (verbosity : Option VerbosityLevel) : List Tag :=
  let lang := (env.lang fname).getD ""
  if lang = "" then []
  else if ¬ env.loadOk lang then []
  else if ¬ env.scm lang verbosity then []
  else
    let mainTags := queryTags fname rel_fname (env.captures lang code verbosity)
    let sawRef := mainTags.any (fun t => t.kind == "ref")
    let sawDef := mainTags.any (fun t => t.kind == "def")
    if sawRef then mainTags
    else if ¬ sawDef then mainTags
    else
      match env.lexTokens fname code with
      | none => mainTags
      | some toks =>
        mainTags ++ toks.map (fun tok =>
          { rel_fname := rel_fname, fname := fname, line := -1,
            name := tok, kind := "ref" })

/-! ## Multi-resolution renderer (src/repo_map/core/renderer.py) -/

namespace ContextRenderer

/-- File-level verbosity used by the renderer: the flight plan's resolution
when a plan is present, the renderer's default otherwise
(`ContextRenderer.get_verbosity_for_path`). -/
def get_verbosity_for_path (fp : Option FlightPlan)
    (default_verbosity : VerbosityLevel) (file_path : String) :
    VerbosityLevel :=
  match fp with
  | some p => p.get_verbosity_for_path file_path
  | none => default_verbosity

/-- Budget the renderer enforces: the flight plan's, or 20000 without one. -/
def budgetOf (fp : Option FlightPlan) : Nat :=
  match fp with
  | some p => p.budget
  | none => 20000

/-- Helper of `_render_with_treesitter`: emits, for each definition tag in
order, the source line at the tag's line number, once per line number and
skipping out-of-range numbers. -/
def collectDefLines (lines : List (List Char)) :
    List Tag → List Int → List (List Char)
  | [], _ => []
  | t :: ts, seen =>
    if t.kind == "def" && !(seen.contains t.line) &&
        decide (0 ≤ t.line) && decide (t.line < (lines.length : Int)) then
      lines.getD t.line.toNat [] :: collectDefLines lines ts (t.line :: seen)
    else collectDefLines lines ts seen

/-- Embedding of `ContextRenderer._render_with_treesitter`: unknown
languages fall back to the full content; a supported language with no
extracted tags renders as empty; otherwise the definition tags' source
lines are joined with newlines. -/
def _render_with_treesitter (env : TsEnv)
    (file_path content : String) (verbosity : VerbosityLevel) : String :=
  let lang := (env.lang file_path).getD ""
  if lang = "" then content
  else
    let rel_fname := pyBasename file_path
    let tags := get_tags_from_code env file_path rel_fname content (some verbosity)
    if tags.isEmpty then ""
    else
      let lines := pySplitlinesChars content.data
      String.mk (List.intercalate ['\n'] (collectDefLines lines tags []))

/-- Embedding of `ContextRenderer.render_file_at_level`. -/
def render_file_at_level (env : TsEnv) (file_path content : String)
    (verbosity : VerbosityLevel) : String :=
  match verbosity with
  | .EXCLUDE => ""
  | .EXISTENCE => ""
  | .IMPLEMENTATION => content
  | _ => _render_with_treesitter env file_path content verbosity

/-- Embedding of the renderer's `calculate_file_costs`: level 1 estimates
the path's final component, levels 2 and 3 estimate the actually rendered
content, level 4 is exact. -/
def calculate_file_costs (env : TsEnv) (file_path content : String) :
    VerbosityLevel → Nat :=
  fun lv => match lv with
  | .EXCLUDE => 0
  | .EXISTENCE => estimate_tokens (pyBasename file_path)
  | .STRUCTURE =>
    estimate_tokens (render_file_at_level env file_path content .STRUCTURE)
  | .INTERFACE =>
    estimate_tokens (render_file_at_level env file_path content .INTERFACE)
  | .IMPLEMENTATION => estimate_tokens content

/-- Token cost the rendering loop charges for one file: the rendered
content's estimate, or the raw path's estimate when the rendering is the
empty string. -/
def renderedTokens (env : TsEnv) (fp : Option FlightPlan)
    (dv : VerbosityLevel) (file_path content : String) : Nat :=
  let verbosity := get_verbosity_for_path fp dv file_path
  let rendered := render_file_at_level env file_path content verbosity
  if rendered ≠ "" then estimate_tokens rendered else estimate_tokens file_path

/-- Cost annotation line emitted when cost display is requested. -/
def costLine (env : TsEnv) (file_path content : String) : String :=
  let costs := calculate_file_costs env file_path content
  "# Costs: L0=" ++ toString (costs .EXCLUDE) ++
  ", L1=" ++ toString (costs .EXISTENCE) ++
  ", L2=" ++ toString (costs .STRUCTURE) ++
  ", L3=" ++ toString (costs .INTERFACE) ++
  ", L4=" ++ toString (costs .IMPLEMENTATION) ++ " tokens\n"

/-- Trailing budget summary line of `ContextRenderer.render`, with the
over-budget marker exactly when the total exceeds the budget. -/
def mkSummary (budget total : Nat) : String :=
  "\n# Total: " ++ toString total ++ "/" ++ toString budget ++ " tokens" ++
  (if budget < total then " ⚠️ OVER BUDGET" else "")

/-- Strict-mode error message of `ContextRenderer.render`. -/
def budgetError (budget total : Nat) (file_path : String) : String :=
  "Budget exceeded: " ++ toString total ++ " tokens (budget: " ++
  toString budget ++ "). Stopped at " ++ file_path

/-- Main loop of `ContextRenderer.render` over the remaining files, carrying
the running token total and the output parts accumulated so far. -/
def renderLoop (env : TsEnv) (fp : Option FlightPlan) (dv : VerbosityLevel)
    (show_costs strict : Bool) :
    List (String × String) → Nat → List String → Except String String
  | [], total, parts =>
    .ok (String.intercalate "\n" (parts ++ [mkSummary (budgetOf fp) total]))
  | (file_path, content) :: rest, total, parts =>
    let verbosity := get_verbosity_for_path fp dv file_path
    if verbosity = .EXCLUDE then
      renderLoop env fp dv show_costs strict rest total parts
    else
      let rendered := render_file_at_level env file_path content verbosity
      let tokens :=
        if rendered ≠ "" then estimate_tokens rendered
        else estimate_tokens file_path
      if strict ∧ budgetOf fp < total + tokens then
        .error (budgetError (budgetOf fp) (total + tokens) file_path)
      else
        let costs := if show_costs then costLine env file_path content else ""
        let body :=
          if verbosity = .EXISTENCE then
            "# [path only - " ++ toString tokens ++ " tokens]\n"
          else if rendered ≠ "" then "```\n" ++ rendered ++ "\n```\n"
          else ""
        let file_output := "## " ++ file_path ++ "\n" ++ costs ++ body
        renderLoop env fp dv show_costs strict rest (total + tokens)
          (parts ++ [file_output])

/-- Embedding of `ContextRenderer.render`. -/
def render (env : TsEnv) (fp : Option FlightPlan) (dv : VerbosityLevel)
    (files : List (String × String)) (show_costs strict : Bool) :
    Except String String :=
  renderLoop env fp dv show_costs strict files 0 []

/-- Total token count the non-strict rendering loop accumulates. -/
def render_total (env : TsEnv) (fp : Option FlightPlan) (dv : VerbosityLevel) :
    List (String × String) → Nat
  | [] => 0
  | (p, c) :: rest =>
    if get_verbosity_for_path fp dv p = .EXCLUDE then
      render_total env fp dv rest
    else renderedTokens env fp dv p c + render_total env fp dv rest

/-- First file at which the strict rendering loop's running total would
exceed the budget, together with the offending total. -/
def first_offender (env : TsEnv) (fp : Option FlightPlan)
    (dv : VerbosityLevel) : List (String × String) → Nat →
    Option (String × Nat)
  | [], _ => none
  | (p, c) :: rest, total =>
    if get_verbosity_for_path fp dv p = .EXCLUDE then
      first_offender env fp dv rest total
    else
      let t := total + renderedTokens env fp dv p c
      if budgetOf fp < t then some (p, t) else first_offender env fp dv rest t

end ContextRenderer

/-! ## Ranked repository map engine (src/repo_map/core/repomap.py) -/

namespace RepoMap

/-- Entry of the ranked-tag list of `_get_ranked_tags`: either a concrete
`Tag` or a bare one-element tuple `(rel_fname,)` for a file contributing no
ranked tags. -/
inductive RankedEntry where
  | tag : Tag → RankedEntry
  | fileOnly : String → RankedEntry
deriving DecidableEq

/-- Sort key realising Python tuple comparison on ranked entries: a `Tag` is
the tuple (rel_fname, fname, line, name, kind), a bare entry the tuple
(rel_fname,), and on an equal first component the shorter tuple sorts
first (encoded by the arity component).  Strings are compared as their
character lists, Python's code-point lexicographic order. -/
def entryKey (e : RankedEntry) :
    List Char ×ₗ (Nat ×ₗ (List Char ×ₗ (Int ×ₗ (List Char ×ₗ List Char)))) :=
  match e with
  | .fileOnly n =>
    toLex (n.data, toLex (0, toLex ([], toLex (0, toLex ([], [])))))
  | .tag t =>
    toLex (t.rel_fname.data,
      toLex (1, toLex (t.fname.data, toLex (t.line, toLex (t.name.data, t.kind.data)))))

/-- Python `sorted` on ranked entries.  The comparison is a linear order, so
any comparison sort — here insertion sort — computes the same result. -/
def pySorted (l : List RankedEntry) : List RankedEntry :=
  List.insertionSort (fun a b => entryKey a ≤ entryKey b) l

/-- Loop state of `_to_tree`: the current relative and absolute file names,
the lines of interest collected for the current file (None outside a
flushable run), and the output accumulated so far. -/
structure ToTreeState where
  curFname : Option String
  curAbs : Option String
  lois : Option (List Int)
  output : String

/-- One iteration of the `_to_tree` loop; `rt` abstracts `_render_tree`
(the grep-ast `TreeContext` collapsed-view renderer), and the `none` entry
is the dummy tag flushing the final file. -/
def toTreeStep (rt : String → String → List Int → String)
    (st : ToTreeState) (e : Option RankedEntry) : ToTreeState :=
  let thisRel : Option String :=
    match e with
    | some (.tag t) => some t.rel_fname
    | some (.fileOnly n) => some n
    | none => none
  let st1 :=
    if thisRel ≠ st.curFname then
      let st2 :=
        match st.lois with
        | some l =>
          if st.curAbs.getD "" ≠ "" ∧ st.curFname.getD "" ≠ "" then
            { st with
              output := st.output ++ "\n" ++ st.curFname.getD "" ++ ":\n" ++
                rt (st.curAbs.getD "") (st.curFname.getD "") l
              lois := none }
          else if st.curFname.getD "" ≠ "" then
            { st with output := st.output ++ "\n" ++ st.curFname.getD "" ++ "\n" }
          else st
        | none =>
          if st.curFname.getD "" ≠ "" then
            { st with output := st.output ++ "\n" ++ st.curFname.getD "" ++ "\n" }
          else st
      let st3 :=
        match e with
        | some (.tag t) => { st2 with lois := some [], curAbs := some t.fname }
        | _ => st2
      { st3 with curFname := thisRel }
    else st
  match st1.lois, e with
  | some l, some (.tag t) => { st1 with lois := some (l ++ [t.line]) }
  | _, _ => st1

/-- Embedding of `RepoMap._to_tree`: sort the entries, run the grouping
loop with a trailing dummy entry, then truncate every output line to 100
characters. -/
def _to_tree (rt : String → String → List Int → String)
    (tags : List RankedEntry) : String :=
  if tags.isEmpty then ""
  else
    let final := (((pySorted tags).map Option.some) ++ [Option.none]).foldl
      (toTreeStep rt) ⟨none, none, none, ""⟩
    String.mk
      (List.intercalate ['\n']
        ((pySplitlinesChars final.output.data).map (fun l => l.take 100)) ++
      ['\n'])

/-- Binary-search loop of `get_repo_map` over the ranked-entry count.  The
Python loop terminates because the bounds interval shrinks every iteration;
`fuel` (initially the entry count plus two, an upper bound on the iteration
count) keeps the recursion structural.  The float test
`abs(num_tokens - max) / max < 0.15` is modelled as the exact rational
comparison `20 * abs(num_tokens - max) < 3 * max`. -/
def searchLoop (tree : Int → String) (budget : Nat) :
    Nat → Int → Int → Int → Option String → Nat → Option String
  | 0, _, _, _, best, _ => best
  | fuel + 1, lo, hi, middle, best, bestTokens =>
    if hi < lo then best
    else
      let t := tree middle
      let numTokens := estimate_tokens t
      let pctOk := 20 * ((numTokens : Int) - (budget : Int)).natAbs < 3 * budget
      let isBetter := numTokens ≤ budget ∧ bestTokens < numTokens
      let best' := if isBetter ∨ pctOk then some t else best
      let bestTokens' := if isBetter ∨ pctOk then numTokens else bestTokens
      if pctOk then best'
      else
        let lo' := if numTokens < budget then middle + 1 else lo
        let hi' := if numTokens < budget then hi else middle - 1
        searchLoop tree budget fuel lo' hi' ((lo' + hi').fdiv 2) best' bestTokens'

/-- Budget-fitting phase of `RepoMap.get_repo_map`, taking the assembled
ranked-entry list as input (tag extraction, ranking and special-file
prepending happen upstream) and the token budget `max_map_tokens`: a
non-positive budget short-circuits to no map, otherwise the binary search
starts at `min(budget // 25, num_tags)` with bounds 0 and `num_tags`. -/
def get_repo_map (rt : String → String → List Int → String)
    (ranked_tags : List RankedEntry) (max_map_tokens : Nat) : Option String :=
  if max_map_tokens = 0 then none
  else
    let num_tags := ranked_tags.length
    let tree : Int → String := fun k => _to_tree rt (ranked_tags.take k.toNat)
    searchLoop tree max_map_tokens (num_tags + 2) 0 num_tags
      (min ((max_map_tokens / 25 : Nat) : Int) (num_tags : Int)) none 0

/-! ### Symbol graph construction (`_get_ranked_tags`, build phase)

The input is the per-file tag extraction result: a list of
(relative file name, tags) pairs, exactly what the scanning loop of
`_get_ranked_tags` derives from the filesystem before building
`defines`/`references`. -/

/-- Set of files defining an identifier (`defines[ident]`), in
insertion order. -/
def definesOf (input : List (String × List Tag)) (ident : String) :
    List String :=
  pyDedup (input.flatMap (fun p =>
    p.2.filterMap (fun t =>
      if t.kind == "def" && t.name == ident then some p.1 else none)))

/-- List, with repetition, of files referencing an identifier
(`references[ident]`). -/
def referencesRaw (input : List (String × List Tag)) (ident : String) :
    List String :=
  input.flatMap (fun p =>
    p.2.filterMap (fun t =>
      if t.kind == "ref" && t.name == ident then some p.1 else none))

/-- Whether the whole corpus produced any reference tag (the `references`
dict is non-empty). -/
def hasAnyRef (input : List (String × List Tag)) : Bool :=
  input.any (fun p => p.2.any (fun t => t.kind == "ref"))

/-- Effective reference lists after the corpus-wide fallback: when no file
references anything, every definition counts as a self-reference
(`references = {k: list(v) for k, v in defines.items()}`). -/
def referencesOf (input : List (String × List Tag)) (ident : String) :
    List String :=
  if hasAnyRef input then referencesRaw input ident else definesOf input ident

/-- Identifiers appearing in the `defines` dict, in insertion order. -/
def defIdents (input : List (String × List Tag)) : List String :=
  pyDedup (input.flatMap (fun p =>
    p.2.filterMap (fun t => if t.kind == "def" then some t.name else none)))

/-- Identifiers both defined and referenced
(`set(defines).intersection(set(references))`). -/
def bothIdents (input : List (String × List Tag)) : List String :=
  (defIdents input).filter (fun i => !(referencesOf input i).isEmpty)

/-- Identifiers defined but never referenced, which receive self-loop
edges. -/
def selfLoopIdents (input : List (String × List Tag)) : List String :=
  (defIdents input).filter (fun i => (referencesOf input i).isEmpty)

/-- Edge-weight multiplier of `_get_ranked_tags`: x10 for long multi-word
identifiers, x0.1 for a leading underscore, x0.1 when more than five files
define the identifier; the factors compose multiplicatively.  Python float
literals are modelled as exact rationals, and the ASCII-only Lean character
classifiers match Python's Unicode ones on the ASCII identifiers this
system extracts. -/
def multiplier (ident : String) (num_definers : Nat) : ℚ :=
  let is_snake := ident.data.contains '_' && ident.data.any Char.isAlpha
  let is_kebab := ident.data.contains '-' && ident.data.any Char.isAlpha
  let is_camel := ident.data.any Char.isUpper && ident.data.any Char.isLower
  let mul : ℚ := 1
  let mul := if (is_snake || is_kebab || is_camel) && decide (8 ≤ ident.length)
    then mul * 10 else mul
  let mul := if pyStartswith ident "_" then mul * (1 / 10) else mul
  let mul := if 5 < num_definers then mul * (1 / 10) else mul
  mul

/-- Edge of the symbol multigraph.  The weight `wq * sqrt wn` is kept
symbolic — `wq` the rational multiplier, `wn` the reference count under the
square root — so that edge construction stays executable; `Edge.weight`
interprets it in the reals.  A self-loop's fixed weight 0.1 is encoded as
`wq = 1/10, wn = 1`. -/
structure Edge where
  src : String
  dst : String
  ident : String
  wq : ℚ
  wn : Nat
deriving DecidableEq

/-- Real-valued weight of an edge. -/
noncomputable def Edge.weight (e : Edge) : ℝ :=
  (e.wq : ℝ) * Real.sqrt (e.wn : ℝ)

/-- Edge list built by the graph phase of `_get_ranked_tags`: self-loops of
weight 0.1 for definitions without referencers, then, for every identifier
both defined and referenced, one edge per (referencing file, defining file)
pair with weight `multiplier(ident) * sqrt(reference count of that pair)`. -/
def graphEdges (input : List (String × List Tag)) : List Edge :=
  ((selfLoopIdents input).flatMap (fun ident =>
    (definesOf input ident).map (fun definer =>
      { src := definer, dst := definer, ident := ident, wq := 1 / 10, wn := 1 })))
  ++ ((bothIdents input).flatMap (fun ident =>
    (counterItems (referencesOf input ident)).flatMap (fun rn =>
      (definesOf input ident).map (fun definer =>
        { src := rn.1, dst := definer, ident := ident,
          wq := multiplier ident (definesOf input ident).length,
          wn := rn.2 }))))

/-- Rank phase of `_get_ranked_tags` around `nx.pagerank`: `attempt i` is
the outcome of the i-th invocation of PageRank on the already-built graph
(`none` when it raises `ZeroDivisionError`), and `distribute` is the
rank-redistribution and sorting that follows a successful call.  A first
failure triggers exactly one identical retry; a second failure yields the
empty ranking instead of propagating the error. -/
def ranked_after_pagerank {R α : Type} (attempt : Nat → Option R)
    (distribute : R → List α) : List α :=
  match attempt 0 with
  | some r => distribute r
  | none =>
    match attempt 1 with
    | some r => distribute r
    | none => []

end RepoMap

/-! ## Helper lemmas -/

/-- Characterisation of the last-match-wins fold of
`FlightPlan.get_verbosity_for_path`, for an arbitrary initial level: the
result is determined by the last rule that both matches the path and
carries a level. -/
theorem foldl_verbosity_lastMatch (path : String) (init : VerbosityLevel)
    (rules : List VerbosityRule) :
    (rules.foldl
      (fun level rule =>
        if pyFnmatch path rule.pattern ∧ rule.level.isSome then
          rule.level.getD VerbosityLevel.IMPLEMENTATION
        else level)
      init) =
    (match (rules.filter
        (fun r => pyFnmatch path r.pattern && r.level.isSome)).getLast? with
     | some r => r.level.getD VerbosityLevel.IMPLEMENTATION
     | none => init) := by
  induction rules using List.reverseRecOn with
  | nil => rfl
  | append_singleton rs r ih =>
    rw [List.foldl_append, List.filter_append]
    by_cases h : (pyFnmatch path r.pattern && r.level.isSome) = true
    · have hp : pyFnmatch path r.pattern ∧ r.level.isSome := by
        simpa [Bool.and_eq_true] using h
      simp only [List.foldl_cons, List.foldl_nil, if_pos hp,
        List.filter_cons, h, if_pos, List.filter_nil, List.getLast?_concat]
    · have hb : (pyFnmatch path r.pattern && r.level.isSome) = false := by
        simpa using h
      have hp : ¬ (pyFnmatch path r.pattern ∧ r.level.isSome) := by
        simpa [Bool.and_eq_true] using h
      simp only [List.foldl_cons, List.foldl_nil, if_neg hp, List.filter_cons, hb,
        Bool.false_eq_true, if_false, List.filter_nil, List.append_nil]
      exact ih

/-! ## Claim C4 and C5: flight-plan verbosity resolution -/

/-- C4 (counterexample).  The claim says that when the matching rule for a
path carries sections instead of a level, the file-level verbosity is the
default level 4 even if an earlier matching rule set a different file-level
verbosity.  On the code, a sections-bearing rule is simply skipped by
`get_verbosity_for_path`, so the earlier rule's level 2 survives: for the
rule list [(pattern "*", level 2), (pattern "*", sections [...])] and path
"a.py", both rules match, the last matching rule carries sections, yet the
resolved verbosity is STRUCTURE (2), not IMPLEMENTATION (4). -/
theorem sections_rule_counterexample :
    pyFnmatch "a.py" "*" = true ∧
    ((FlightPlan.mk 20000
      [VerbosityRule.mk "*" (some VerbosityLevel.STRUCTURE) none,
       VerbosityRule.mk "*" none
         (some [SectionVerbosity.mk "x" VerbosityLevel.EXCLUDE])]).verbosity.getLast?.map
      (fun r => r.sections.isSome)) = some true ∧
    (FlightPlan.mk 20000
      [VerbosityRule.mk "*" (some VerbosityLevel.STRUCTURE) none,
       VerbosityRule.mk "*" none
         (some [SectionVerbosity.mk "x" VerbosityLevel.EXCLUDE])]).get_verbosity_for_path
      "a.py" ≠ VerbosityLevel.IMPLEMENTATION := by
  decide

/-- C4 (amended).  A rule carrying sections leaves the file-level verbosity
unchanged: `get_verbosity_for_path` resolves to the level of the last
matching rule that carries a level, and to the default IMPLEMENTATION (4)
when no matching rule carries a level — in particular when only
sections-bearing rules match. -/
theorem sections_rule_keeps_prior_level (fp : FlightPlan) (path : String) :
    fp.get_verbosity_for_path path =
      (match (fp.verbosity.filter
          (fun r => pyFnmatch path r.pattern && r.level.isSome)).getLast? with
       | some r => r.level.getD VerbosityLevel.IMPLEMENTATION
       | none => VerbosityLevel.IMPLEMENTATION) :=
  foldl_verbosity_lastMatch path VerbosityLevel.IMPLEMENTATION fp.verbosity

/-- C5.  For a rule list in which every rule carries a level, the resolved
file-level verbosity is the level of the last rule whose glob pattern
matches the path, and IMPLEMENTATION (4) when no rule matches. -/
theorem flight_plan_last_match_wins (fp : FlightPlan) (path : String)
    (h : ∀ r ∈ fp.verbosity, r.level.isSome) :
    fp.get_verbosity_for_path path =
      (match (fp.verbosity.filter
          (fun r => pyFnmatch path r.pattern)).getLast? with
       | some r => r.level.getD VerbosityLevel.IMPLEMENTATION
       | none => VerbosityLevel.IMPLEMENTATION) := by
  unfold FlightPlan.get_verbosity_for_path
  rw [foldl_verbosity_lastMatch]
  have hf : fp.verbosity.filter
      (fun r => pyFnmatch path r.pattern && r.level.isSome) =
      fp.verbosity.filter (fun r => pyFnmatch path r.pattern) := by
    apply List.filter_congr
    intro r hr
    simp [h r hr]
  rw [hf]

/-- Witness for C5 at the claim's own example: rules
[(pattern "**/*.py", level 2), (pattern "tests/**", level 0)] and path
"tests/test_x.py" resolve to level 0, the last matching rule's level. -/
theorem flight_plan_last_match_wins_witness :
    (FlightPlan.mk 20000
      [VerbosityRule.mk "**/*.py" (some VerbosityLevel.STRUCTURE) none,
       VerbosityRule.mk "tests/**" (some VerbosityLevel.EXCLUDE) none]).get_verbosity_for_path
      "tests/test_x.py" = VerbosityLevel.EXCLUDE :=
  (flight_plan_last_match_wins _ "tests/test_x.py" (by decide)).trans (by decide)

/-! ## Claim C3: the per-file cost table -/

/-- C3 (counterexample).  The claim asserts cost(level 1) ≤ cost(level 4)
for every file, but level 1 is the fixed estimate 5 while level 4 is
`len(content) // 4`, so any content shorter than 20 characters — here the
empty file — has cost(1) = 5 > cost(4). -/
theorem calculate_file_costs_short_file :
    calculate_file_costs "" none none VerbosityLevel.IMPLEMENTATION = 0 ∧
    calculate_file_costs "" none none VerbosityLevel.EXISTENCE = 5 ∧
    ¬ calculate_file_costs "" none none VerbosityLevel.EXISTENCE ≤
        calculate_file_costs "" none none VerbosityLevel.IMPLEMENTATION := by
  decide

/-- C3 (amended).  For every file content, cost(level 0) = 0, level 1 is the
fixed 5-token estimate, cost(level 4) equals `estimate_tokens(content) =
len(content) // 4` exactly, and cost(level 1) ≤ cost(level 4) holds whenever
the content is at least 20 characters long (it fails on shorter files, see
the counterexample). -/
theorem calculate_file_costs_level_bounds (content : String)
    (sc ic : Option String) :
    calculate_file_costs content sc ic VerbosityLevel.EXCLUDE = 0 ∧
    calculate_file_costs content sc ic VerbosityLevel.EXISTENCE = 5 ∧
    calculate_file_costs content sc ic VerbosityLevel.IMPLEMENTATION =
      estimate_tokens content ∧
    (20 ≤ content.length →
      calculate_file_costs content sc ic VerbosityLevel.EXISTENCE ≤
        calculate_file_costs content sc ic VerbosityLevel.IMPLEMENTATION) := by
  refine ⟨rfl, rfl, rfl, fun h => ?_⟩
  show 5 ≤ estimate_tokens content
  unfold estimate_tokens
  omega

/-- Witness for C3 (amended) at a 24-character content. -/
theorem calculate_file_costs_level_bounds_witness :
    20 ≤ ("abcdefghijklmnopqrstuvwx" : String).length ∧
    calculate_file_costs "abcdefghijklmnopqrstuvwx" none none
        VerbosityLevel.EXISTENCE ≤
      calculate_file_costs "abcdefghijklmnopqrstuvwx" none none
        VerbosityLevel.IMPLEMENTATION :=
  ⟨by decide,
   (calculate_file_costs_level_bounds "abcdefghijklmnopqrstuvwx" none none).2.2.2
     (by decide)⟩

/-! ## Claim C7: the PageRank retry -/

/-- C7.  When the first PageRank invocation fails, the ranking phase is
entirely determined by one identical retry: a successful retry is
distributed as usual and a second failure yields the empty ranking instead
of an exception — the embedding is total, so no error escapes. -/
theorem pagerank_retry_empty_on_failure {R α : Type} (attempt : Nat → Option R)
    (distribute : R → List α) (h : attempt 0 = none) :
    RepoMap.ranked_after_pagerank attempt distribute =
      (attempt 1).elim [] distribute := by
  unfold RepoMap.ranked_after_pagerank
  rw [h]
  cases attempt 1 <;> rfl

/-- Witness for C7: both PageRank attempts fail, and the phase returns the
empty ranking. -/
theorem pagerank_retry_empty_on_failure_witness :
    RepoMap.ranked_after_pagerank (fun _ => (none : Option Nat))
      (fun _ => ([0] : List Nat)) = ([] : List Nat) :=
  (pagerank_retry_empty_on_failure (fun _ => (none : Option Nat))
    (fun _ => ([0] : List Nat)) rfl).trans rfl

/-! ## Claim C10: CostManifest accounting -/

/-- Folding `add_file` accumulates the rendered-level cost of every call,
repeated paths included. -/
theorem foldl_add_file_actual
    (calls : List (String × (VerbosityLevel → Nat) × VerbosityLevel)) :
    ∀ m : CostManifest,
      (calls.foldl (fun m c => m.add_file c.1 c.2.1 c.2.2) m).actual =
        m.actual + (calls.map (fun c => c.2.1 c.2.2)).sum := by
  induction calls with
  | nil => intro m; simp
  | cons c cs ih =>
    intro m
    rw [List.foldl_cons, ih]
    simp only [CostManifest.add_file, List.map_cons, List.sum_cons]
    omega

/-- Lookup through the in-place-update branch of `dictInsert`. -/
theorem lookup_map_update {V : Type} (k : String) (v : V) (q : String) :
    ∀ d : List (String × V),
      (d.map (fun p => if p.1 = k then (k, v) else p)).lookup q =
        (if q = k then
          (if d.any (fun p => decide (p.1 = k)) then some v else none)
         else d.lookup q) := by
  intro d
  induction d with
  | nil => simp [List.lookup]
  | cons p d ih =>
    obtain ⟨a, b⟩ := p
    by_cases hp : a = k <;> by_cases hq : q = k
    · simp_all [List.lookup_cons, beq_iff_eq, beq_eq_decide]
    · simp_all [List.lookup_cons, beq_iff_eq, beq_eq_decide]
    · have hp' : ¬ k = a := fun e => hp e.symm
      simp_all [List.lookup_cons, beq_iff_eq, beq_eq_decide, decide_eq_false hp]
      rw [decide_eq_false hp, Bool.false_or]
    · simp_all [List.lookup_cons, beq_iff_eq, beq_eq_decide]

/-- Lookup through the append branch of `dictInsert` (key not present). -/
theorem lookup_append_new_key {V : Type} (k : String) (v : V) (q : String) :
    ∀ d : List (String × V),
      (d.any (fun p => decide (p.1 = k))) = false →
      (d ++ [(k, v)]).lookup q = (if q = k then some v else d.lookup q) := by
  intro d
  induction d with
  | nil =>
    intro _
    by_cases hq : q = k <;> simp_all [List.lookup_cons, beq_iff_eq, beq_eq_decide]
  | cons p d ih =>
    obtain ⟨a, b⟩ := p
    intro h
    simp only [List.any_cons, Bool.or_eq_false_iff, decide_eq_false_iff_not] at h
    by_cases hqa : q = a <;> by_cases hqk : q = k <;>
      simp_all [List.lookup_cons, beq_iff_eq, beq_eq_decide]

/-- Dict assignment and lookup: the updated key reads back the new value,
every other key is untouched. -/
theorem dictInsert_lookup {V : Type} (k : String) (v : V)
    (d : List (String × V)) (q : String) :
    (dictInsert k v d).lookup q = (if q = k then some v else d.lookup q) := by
  cases hany : (d.any (fun p => decide (p.1 = k))) with
  | false =>
    unfold dictInsert
    rw [hany]
    simp only [Bool.false_eq_true, if_false]
    exact lookup_append_new_key k v q d hany
  | true =>
    unfold dictInsert
    simp [hany, lookup_map_update]

/-- Folding `add_file` leaves, for every path, the cost table of the last
call recorded against that path. -/
theorem foldl_add_file_lookup
    (calls : List (String × (VerbosityLevel → Nat) × VerbosityLevel)) :
    ∀ (m : CostManifest) (path : String),
      ((calls.foldl (fun m c => m.add_file c.1 c.2.1 c.2.2) m).files.lookup
        path) =
        (match ((calls.filter (fun c => c.1 == path)).map
            (fun c => c.2.1)).getLast? with
         | some v => some v
         | none => m.files.lookup path) := by
  induction calls using List.reverseRecOn with
  | nil => intro m path; simp
  | append_singleton cs c ih =>
    intro m path
    rw [List.foldl_append, List.foldl_cons, List.foldl_nil]
    show (dictInsert c.1 c.2.1
      (cs.foldl (fun m c => m.add_file c.1 c.2.1 c.2.2) m).files).lookup path = _
    rw [dictInsert_lookup, List.filter_append, List.map_append]
    by_cases hc : (c.1 == path) = true
    · have hpc : path = c.1 := (beq_iff_eq.mp hc).symm
      simp [hc, List.getLast?_concat, hpc]
    · have hpc : ¬ path = c.1 := by
        simp only [beq_iff_eq] at hc
        exact fun e => hc e.symm
      simp only [List.filter_cons, hc, Bool.false_eq_true, if_false,
        List.filter_nil, List.map_nil, List.append_nil, if_neg hpc]
      exact ih m path

/-- C10.  Over any sequence of `add_file` calls: the `actual` total sums the
rendered-level cost of every call, repeated paths included; the per-file
table (and hence `total_at_level`) keeps only the last call per distinct
path; and consequently, adding the same path twice makes `actual` exceed
`total_at_level(L)` for every level L, as the concrete double-add instance
shows. -/
theorem add_file_actual_accounting :
    (∀ (budget : Nat)
        (calls : List (String × (VerbosityLevel → Nat) × VerbosityLevel)),
      (calls.foldl (fun m c => m.add_file c.1 c.2.1 c.2.2)
          (CostManifest.init budget)).actual =
        (calls.map (fun c => c.2.1 c.2.2)).sum) ∧
    (∀ (budget : Nat)
        (calls : List (String × (VerbosityLevel → Nat) × VerbosityLevel))
        (path : String),
      (calls.foldl (fun m c => m.add_file c.1 c.2.1 c.2.2)
          (CostManifest.init budget)).files.lookup path =
        ((calls.filter (fun c => c.1 == path)).map (fun c => c.2.1)).getLast?) ∧
    (∀ level : VerbosityLevel,
      (((CostManifest.init 100).add_file "a" (fun _ => 10)
          VerbosityLevel.IMPLEMENTATION).add_file "a" (fun _ => 10)
          VerbosityLevel.IMPLEMENTATION).total_at_level level <
        (((CostManifest.init 100).add_file "a" (fun _ => 10)
          VerbosityLevel.IMPLEMENTATION).add_file "a" (fun _ => 10)
          VerbosityLevel.IMPLEMENTATION).actual) := by
  refine ⟨?_, ?_, ?_⟩
  · intro budget calls
    rw [foldl_add_file_actual]
    simp [CostManifest.init]
  · intro budget calls path
    rw [foldl_add_file_lookup]
    cases h : ((calls.filter (fun c => c.1 == path)).map
        (fun c => c.2.1)).getLast? <;> simp [CostManifest.init]
  · intro level
    cases level <;> decide

/-! ## Claim C8: reference backfill in tag extraction -/

/-- C8.  For a supported language whose parser, query document and lexer all
resolve, `get_tags_from_code` backfills pygments identifier tokens as
reference tags at sentinel line -1 exactly when the structural query
produced at least one definition and no reference; when the query produced
a reference, or no definition at all, the query tags are returned
unchanged. -/
theorem get_tags_backfill (env : TsEnv) (fname rel_fname code : String)
    (verbosity : Option VerbosityLevel) (l : String) (toks : List String)
    (hlang : env.lang fname = some l) (hl : ¬ l = "")
    (hload : env.loadOk l = true) (hscm : env.scm l verbosity = true)
    (hlex : env.lexTokens fname code = some toks) :
    (((queryTags fname rel_fname (env.captures l code verbosity)).any
          (fun t => t.kind == "def") = true ∧
      (queryTags fname rel_fname (env.captures l code verbosity)).any
          (fun t => t.kind == "ref") = false) →
      get_tags_from_code env fname rel_fname code verbosity =
        queryTags fname rel_fname (env.captures l code verbosity) ++
          toks.map (fun tok =>
            Tag.mk rel_fname fname (-1) tok "ref")) ∧
    (((queryTags fname rel_fname (env.captures l code verbosity)).any
          (fun t => t.kind == "ref") = true ∨
      (queryTags fname rel_fname (env.captures l code verbosity)).any
          (fun t => t.kind == "def") = false) →
      get_tags_from_code env fname rel_fname code verbosity =
        queryTags fname rel_fname (env.captures l code verbosity)) := by
  unfold get_tags_from_code
  rw [hlang]
  simp only [Option.getD_some, if_neg hl, hload, hscm, hlex,
    eq_self_iff_true, not_true, if_false]
  constructor
  · rintro ⟨hdef, href⟩
    simp [href, hdef]
  · intro h
    rcases h with href | hdef
    · simp [href]
    · by_cases hr : ((queryTags fname rel_fname
          (env.captures l code verbosity)).any (fun t => t.kind == "ref")) = true
      · simp [hr]
      · simp [hr, hdef]

/-- Witness for C8: a cpp-style file whose query produces one definition and
no references, with pygments supplying one identifier token; the output is
the query tag followed by a backfilled reference at line -1. -/
theorem get_tags_backfill_witness :
    get_tags_from_code
      (TsEnv.mk (fun _ => some "cpp") (fun _ => true) (fun _ _ => true)
        (fun _ _ _ => [("name.definition.function", "foo", 3)])
        (fun _ _ => some ["bar"]))
      "/r/f.cpp" "f.cpp" "void foo();" none =
      queryTags "/r/f.cpp" "f.cpp" [("name.definition.function", "foo", 3)] ++
        ["bar"].map (fun tok => Tag.mk "f.cpp" "/r/f.cpp" (-1) tok "ref") :=
  (get_tags_backfill
      (TsEnv.mk (fun _ => some "cpp") (fun _ => true) (fun _ _ => true)
        (fun _ _ _ => [("name.definition.function", "foo", 3)])
        (fun _ _ => some ["bar"]))
      "/r/f.cpp" "f.cpp" "void foo();" none "cpp" ["bar"]
      rfl (by decide) rfl rfl rfl).1 ⟨by decide, by decide⟩

/-! ## Claim C2: renderer budget semantics -/

namespace ContextRenderer

/-- In non-strict mode the rendering loop always succeeds, and its output is
the accumulated parts followed by the budget summary computed from the
running total. -/
theorem renderLoop_nonstrict (env : TsEnv) (fp : Option FlightPlan)
    (dv : VerbosityLevel) (sc : Bool) :
    ∀ (files : List (String × String)) (total : Nat) (parts : List String),
      ∃ parts2,
        renderLoop env fp dv sc false files total parts =
          .ok (String.intercalate "\n" (parts2 ++
            [mkSummary (budgetOf fp) (total + render_total env fp dv files)])) := by
  intro files
  induction files with
  | nil =>
    intro total parts
    exact ⟨parts, by simp [renderLoop, render_total]⟩
  | cons f rest ih =>
    intro total parts
    obtain ⟨p, c⟩ := f
    by_cases hv : get_verbosity_for_path fp dv p = VerbosityLevel.EXCLUDE
    · obtain ⟨parts2, h2⟩ := ih total parts
      exact ⟨parts2, by rw [renderLoop, if_pos hv, h2]; rw [render_total, if_pos hv]⟩
    · obtain ⟨parts2, h2⟩ := ih (total + renderedTokens env fp dv p c)
        (parts ++ ["## " ++ p ++ "\n" ++
          (if sc then costLine env p c else "") ++
          (if get_verbosity_for_path fp dv p = VerbosityLevel.EXISTENCE then
            "# [path only - " ++ toString (renderedTokens env fp dv p c) ++
              " tokens]\n"
          else if render_file_at_level env p c
              (get_verbosity_for_path fp dv p) ≠ "" then
            "```\n" ++ render_file_at_level env p c
              (get_verbosity_for_path fp dv p) ++ "\n```\n"
          else "")])
      refine ⟨parts2, ?_⟩
      rw [renderLoop, if_neg hv]
      simp only [false_and, if_false, Bool.false_eq_true]
      have harr : total + renderedTokens env fp dv p c +
          render_total env fp dv rest =
          total + render_total env fp dv ((p, c) :: rest) := by
        simp only [render_total, if_neg hv]
        omega
      rw [harr] at h2
      exact h2
end ContextRenderer

namespace ContextRenderer

/-- In strict mode the rendering loop fails with the budget-exceeded error
at the first offending file, and behaves exactly like the non-strict loop
when no file offends. -/
theorem renderLoop_strict (env : TsEnv) (fp : Option FlightPlan)
    (dv : VerbosityLevel) (sc : Bool) :
    ∀ (files : List (String × String)) (total : Nat) (parts : List String),
      (match first_offender env fp dv files total with
       | some pt =>
         renderLoop env fp dv sc true files total parts =
           .error (budgetError (budgetOf fp) pt.2 pt.1)
       | none =>
         renderLoop env fp dv sc true files total parts =
           renderLoop env fp dv sc false files total parts) := by
  intro files
  induction files with
  | nil =>
    intro total parts
    simp only [first_offender]
    rfl
  | cons f rest ih =>
    intro total parts
    obtain ⟨p, c⟩ := f
    by_cases hv : get_verbosity_for_path fp dv p = VerbosityLevel.EXCLUDE
    · simp only [first_offender, if_pos hv, renderLoop]
      exact ih total parts
    · simp only [first_offender, if_neg hv]
      by_cases hb : budgetOf fp < total + renderedTokens env fp dv p c
      · rw [if_pos hb]
        simp only [renderLoop, if_neg hv, true_and]
        have hcond : budgetOf fp < total +
            (if render_file_at_level env p c
                (get_verbosity_for_path fp dv p) ≠ "" then
              estimate_tokens (render_file_at_level env p c
                (get_verbosity_for_path fp dv p))
            else estimate_tokens p) := hb
        rw [if_pos hcond]
        rfl
      · rw [if_neg hb]
        have step := ih (total + renderedTokens env fp dv p c)
          (parts ++ ["## " ++ p ++ "\n" ++
            (if sc then costLine env p c else "") ++
            (if get_verbosity_for_path fp dv p = VerbosityLevel.EXISTENCE then
              "# [path only - " ++ toString (renderedTokens env fp dv p c) ++
                " tokens]\n"
            else if render_file_at_level env p c
                (get_verbosity_for_path fp dv p) ≠ "" then
              "```\n" ++ render_file_at_level env p c
                (get_verbosity_for_path fp dv p) ++ "\n```\n"
            else "")])
        have hcond : ¬ budgetOf fp < total +
            (if render_file_at_level env p c
                (get_verbosity_for_path fp dv p) ≠ "" then
              estimate_tokens (render_file_at_level env p c
                (get_verbosity_for_path fp dv p))
            else estimate_tokens p) := hb
        have hstrict : renderLoop env fp dv sc true ((p, c) :: rest) total parts =
            renderLoop env fp dv sc true rest
              (total + renderedTokens env fp dv p c)
              (parts ++ ["## " ++ p ++ "\n" ++
                (if sc then costLine env p c else "") ++
                (if get_verbosity_for_path fp dv p = VerbosityLevel.EXISTENCE then
                  "# [path only - " ++ toString (renderedTokens env fp dv p c) ++
                    " tokens]\n"
                else if render_file_at_level env p c
                    (get_verbosity_for_path fp dv p) ≠ "" then
                  "```\n" ++ render_file_at_level env p c
                    (get_verbosity_for_path fp dv p) ++ "\n```\n"
                else "")]) := by
          simp only [renderLoop, if_neg hv, true_and]
          rw [if_neg hcond]
          rfl
        have hfalse : renderLoop env fp dv sc false ((p, c) :: rest) total parts =
            renderLoop env fp dv sc false rest
              (total + renderedTokens env fp dv p c)
              (parts ++ ["## " ++ p ++ "\n" ++
                (if sc then costLine env p c else "") ++
                (if get_verbosity_for_path fp dv p = VerbosityLevel.EXISTENCE then
                  "# [path only - " ++ toString (renderedTokens env fp dv p c) ++
                    " tokens]\n"
                else if render_file_at_level env p c
                    (get_verbosity_for_path fp dv p) ≠ "" then
                  "```\n" ++ render_file_at_level env p c
                    (get_verbosity_for_path fp dv p) ++ "\n```\n"
                else "")]) := by
          simp only [renderLoop, if_neg hv]
          rfl
        cases hfo : first_offender env fp dv rest
            (total + renderedTokens env fp dv p c) with
        | some pt =>
          rw [hfo] at step
          rw [hstrict]
          exact step
        | none =>
          rw [hfo] at step
          rw [hstrict, hfalse]
          exact step

end ContextRenderer

/-- C2.  Budget semantics of `ContextRenderer.render`: in non-strict mode
the result is always a success whose output ends with the summary part
`"\n# Total: <actual>/<budget> tokens"` for the accumulated total, carrying
the `" ⚠️ OVER BUDGET"` marker exactly when the total exceeds the budget
(last conjunct); in strict mode the result is the budget-exceeded error
naming the first file whose rendered cost pushes the running total over the
budget together with the offending total, and coincides with the non-strict
run when no such file exists. -/
theorem render_budget_semantics (env : TsEnv) (fp : Option FlightPlan)
    (dv : VerbosityLevel) (files : List (String × String)) (sc : Bool) :
    (∃ parts,
      ContextRenderer.render env fp dv files sc false =
        .ok (String.intercalate "\n" (parts ++
          [ContextRenderer.mkSummary (ContextRenderer.budgetOf fp)
            (ContextRenderer.render_total env fp dv files)]))) ∧
    (match ContextRenderer.first_offender env fp dv files 0 with
     | some pt =>
       ContextRenderer.render env fp dv files sc true =
         .error (ContextRenderer.budgetError (ContextRenderer.budgetOf fp)
           pt.2 pt.1)
     | none =>
       ContextRenderer.render env fp dv files sc true =
         ContextRenderer.render env fp dv files sc false) ∧
    (∀ budget total : Nat,
      (¬ budget < total →
        ContextRenderer.mkSummary budget total =
          "\n# Total: " ++ toString total ++ "/" ++ toString budget ++
            " tokens") ∧
      (budget < total →
        ContextRenderer.mkSummary budget total =
          "\n# Total: " ++ toString total ++ "/" ++ toString budget ++
            " tokens" ++ " ⚠️ OVER BUDGET")) := by
  refine ⟨?_, ?_, ?_⟩
  · obtain ⟨parts2, h2⟩ :=
      ContextRenderer.renderLoop_nonstrict env fp dv sc files 0 []
    exact ⟨parts2, by
      rw [ContextRenderer.render, h2, Nat.zero_add]⟩
  · exact ContextRenderer.renderLoop_strict env fp dv sc files 0 []
  · intro budget total
    constructor
    · intro h
      rw [ContextRenderer.mkSummary, if_neg h, String.append_empty]
    · intro h
      rw [ContextRenderer.mkSummary, if_pos h]

set_option maxRecDepth 400000 in
/-- Witness for C2: a single 400-character file rendered at full content
against a budget of 50 tokens is 100 tokens, so the first (and only) file
offends and the strict run fails with the budget-exceeded error. -/
theorem render_budget_semantics_witness :
    ContextRenderer.render
      (TsEnv.mk (fun _ => none) (fun _ => false) (fun _ _ => false)
        (fun _ _ _ => []) (fun _ _ => none))
      (some (FlightPlan.mk 50
        [VerbosityRule.mk "**/*.py" (some VerbosityLevel.IMPLEMENTATION) none]))
      VerbosityLevel.STRUCTURE
      [("a.py", String.mk (List.replicate 400 'x'))] false true =
      .error (ContextRenderer.budgetError 50 100 "a.py") := by
  have h := (render_budget_semantics
    (TsEnv.mk (fun _ => none) (fun _ => false) (fun _ _ => false)
      (fun _ _ _ => []) (fun _ _ => none))
    (some (FlightPlan.mk 50
      [VerbosityRule.mk "**/*.py" (some VerbosityLevel.IMPLEMENTATION) none]))
    VerbosityLevel.STRUCTURE
    [("a.py", String.mk (List.replicate 400 'x'))] false).2.1
  rw [show ContextRenderer.first_offender
      (TsEnv.mk (fun _ => none) (fun _ => false) (fun _ _ => false)
        (fun _ _ _ => []) (fun _ _ => none))
      (some (FlightPlan.mk 50
        [VerbosityRule.mk "**/*.py" (some VerbosityLevel.IMPLEMENTATION) none]))
      VerbosityLevel.STRUCTURE
      [("a.py", String.mk (List.replicate 400 'x'))] 0 =
      some ("a.py", 100) by decide] at h
  exact h

/-! ## Claim C9: display order of the rendered tree -/

/-- The sort key of ranked entries is injective: distinct entries compare
as distinct Python tuples. -/
theorem entryKey_injective : Function.Injective RepoMap.entryKey := by
  intro a b h
  cases a with
  | tag t =>
    cases b with
    | tag u =>
      obtain ⟨⟨t1⟩, ⟨t2⟩, t3, ⟨t4⟩, ⟨t5⟩⟩ := t
      obtain ⟨⟨u1⟩, ⟨u2⟩, u3, ⟨u4⟩, ⟨u5⟩⟩ := u
      simp only [RepoMap.entryKey, toLex_inj, Prod.mk.injEq, String.data] at h
      obtain ⟨h1, _, h2, h3, h4, h5⟩ := h
      simp [h1, h2, h3, h4, h5]
    | fileOnly n =>
      simp only [RepoMap.entryKey, toLex_inj, Prod.mk.injEq] at h
      exact absurd h.2.1 one_ne_zero
  | fileOnly n =>
    cases b with
    | tag u =>
      simp only [RepoMap.entryKey, toLex_inj, Prod.mk.injEq] at h
      exact absurd h.2.1 zero_ne_one
    | fileOnly m =>
      obtain ⟨n⟩ := n
      obtain ⟨m⟩ := m
      simp only [RepoMap.entryKey, toLex_inj, Prod.mk.injEq, String.data] at h
      simp [h.1]

/-- Python `sorted` on ranked entries is determined by the multiset of
entries: permuted inputs sort to the same list. -/
theorem pySorted_eq_of_perm {l l' : List RepoMap.RankedEntry}
    (h : l.Perm l') : RepoMap.pySorted l = RepoMap.pySorted l' := by
  haveI : IsTotal RepoMap.RankedEntry
      (fun a b => RepoMap.entryKey a ≤ RepoMap.entryKey b) :=
    ⟨fun a b => le_total _ _⟩
  haveI : IsTrans RepoMap.RankedEntry
      (fun a b => RepoMap.entryKey a ≤ RepoMap.entryKey b) :=
    ⟨fun _ _ _ h1 h2 => le_trans h1 h2⟩
  haveI : IsAntisymm RepoMap.RankedEntry
      (fun a b => RepoMap.entryKey a ≤ RepoMap.entryKey b) :=
    ⟨fun _ _ h1 h2 => entryKey_injective (le_antisymm h1 h2)⟩
  exact List.eq_of_perm_of_sorted
    ((List.perm_insertionSort _ l).trans
      (h.trans (List.perm_insertionSort _ l').symm))
    (List.sorted_insertionSort _ l) (List.sorted_insertionSort _ l')

/-- C9.  The tree assembler `_to_tree` renders the selected entries in
sorted order of their Python tuples, so its output is invariant under
permutation of the ranked-entry list: ranking determines only which entries
are included in the rendered prefix, not their display position. -/
theorem to_tree_perm_invariant (rt : String → String → List Int → String)
    (l l' : List RepoMap.RankedEntry) (h : l.Perm l') :
    RepoMap._to_tree rt l = RepoMap._to_tree rt l' := by
  unfold RepoMap._to_tree
  rw [pySorted_eq_of_perm h]
  have hiff : l = [] ↔ l' = [] := by
    constructor
    · intro e
      subst e
      exact h.nil_eq.symm
    · intro e
      subst e
      exact h.symm.nil_eq.symm
  by_cases he : l = []
  · rw [if_pos (by simp [he]), if_pos (by simp [hiff.mp he])]
  · rw [if_neg (by simpa [List.isEmpty_iff] using he),
      if_neg (by simpa [List.isEmpty_iff] using fun e => he (hiff.mpr e))]

/-- Witness for C9: swapping two bare-file entries leaves the rendered tree
unchanged — the files are displayed in sorted order either way. -/
theorem to_tree_perm_invariant_witness :
    RepoMap._to_tree (fun _ _ _ => "")
      [RepoMap.RankedEntry.fileOnly "b.py", RepoMap.RankedEntry.fileOnly "a.py"] =
    RepoMap._to_tree (fun _ _ _ => "")
      [RepoMap.RankedEntry.fileOnly "a.py", RepoMap.RankedEntry.fileOnly "b.py"] :=
  to_tree_perm_invariant (fun _ _ _ => "")
    [RepoMap.RankedEntry.fileOnly "b.py", RepoMap.RankedEntry.fileOnly "a.py"]
    [RepoMap.RankedEntry.fileOnly "a.py", RepoMap.RankedEntry.fileOnly "b.py"]
    (List.Perm.swap _ _ _)

/-! ## Claim C6: symbol-graph edge weights -/

/-- Membership in the dedup accumulator recursion. -/
theorem mem_pyDedupAux {α : Type} [DecidableEq α] (a : α) :
    ∀ (l seen : List α), a ∈ pyDedupAux seen l ↔ a ∈ l ∧ a ∉ seen := by
  intro l
  induction l with
  | nil => intro seen; simp [pyDedupAux]
  | cons x xs ih =>
    intro seen
    by_cases hx : x ∈ seen
    · rw [pyDedupAux, if_pos hx, ih]
      constructor
      · rintro ⟨ha, hs⟩
        exact ⟨List.mem_cons_of_mem _ ha, hs⟩
      · rintro ⟨ha, hs⟩
        rcases List.mem_cons.mp ha with rfl | ha
        · exact absurd hx hs
        · exact ⟨ha, hs⟩
    · rw [pyDedupAux, if_neg hx]
      simp only [List.mem_cons, ih]
      constructor
      · rintro (rfl | ⟨ha, hs⟩)
        · exact ⟨Or.inl rfl, hx⟩
        · exact ⟨Or.inr ha, fun h => hs (Or.inr h)⟩
      · rintro ⟨rfl | ha, hs⟩
        · exact Or.inl rfl
        · by_cases hax : a = x
          · exact Or.inl hax
          · exact Or.inr ⟨ha, fun h => h.elim hax hs⟩

/-- The dedup recursion yields a duplicate-free list. -/
theorem nodup_pyDedupAux {α : Type} [DecidableEq α] :
    ∀ (l seen : List α), (pyDedupAux seen l).Nodup := by
  intro l
  induction l with
  | nil => intro seen; simp [pyDedupAux]
  | cons x xs ih =>
    intro seen
    by_cases hx : x ∈ seen
    · rw [pyDedupAux, if_pos hx]
      exact ih seen
    · rw [pyDedupAux, if_neg hx]
      refine List.nodup_cons.mpr ⟨?_, ih (x :: seen)⟩
      intro hmem
      exact ((mem_pyDedupAux x xs (x :: seen)).mp hmem).2 (List.mem_cons_self _ _)

/-- Membership is preserved by `pyDedup`. -/
theorem mem_pyDedup {α : Type} [DecidableEq α] {a : α} {l : List α} :
    a ∈ pyDedup l ↔ a ∈ l := by
  rw [pyDedup, mem_pyDedupAux]
  simp

/-- `pyDedup` yields a duplicate-free list. -/
theorem nodup_pyDedup {α : Type} [DecidableEq α] (l : List α) :
    (pyDedup l).Nodup :=
  nodup_pyDedupAux l []

/-- Filtering distributes over `flatMap`. -/
theorem filter_flatMap {α β : Type} (l : List α) (f : α → List β)
    (p : β → Bool) :
    (l.flatMap f).filter p = l.flatMap (fun a => (f a).filter p) := by
  induction l with
  | nil => rfl
  | cons x xs ih => simp [List.filter_append, ih]

/-- Over a duplicate-free list in which only one element produces output,
`flatMap` is that element's output. -/
theorem flatMap_eq_of_unique {α β : Type} {l : List α} {f : α → List β}
    {a : α} (hn : l.Nodup) (ha : a ∈ l)
    (hother : ∀ b ∈ l, b ≠ a → f b = []) :
    l.flatMap f = f a := by
  induction l with
  | nil => cases ha
  | cons x xs ih =>
    rw [List.flatMap_cons]
    rcases List.mem_cons.mp ha with rfl | ha'
    · have hxs : xs.flatMap f = [] :=
        List.flatMap_eq_nil_iff.mpr (fun b hb =>
          hother b (List.mem_cons_of_mem _ hb)
            (fun e => (List.nodup_cons.mp hn).1 (e ▸ hb)))
      rw [hxs, List.append_nil]
    · have hx : f x = [] :=
        hother x (List.mem_cons_self _ _)
          (fun e => (List.nodup_cons.mp hn).1 (e ▸ ha'))
      rw [hx, List.nil_append]
      exact ih (List.nodup_cons.mp hn).2 ha'
        (fun b hb hne => hother b (List.mem_cons_of_mem _ hb) hne)

/-- Over a duplicate-free list, filtering the image of a map by a predicate
that selects exactly one element leaves that element's image. -/
theorem map_filter_eq_singleton {α β : Type} [DecidableEq α] {l : List α}
    {g : α → β} {p : β → Bool} {d : α} (hn : l.Nodup) (hd : d ∈ l)
    (hp : ∀ x ∈ l, p (g x) = decide (x = d)) :
    (l.map g).filter p = [g d] := by
  induction l with
  | nil => cases hd
  | cons x xs ih =>
    rw [List.map_cons, List.filter_cons]
    rcases List.mem_cons.mp hd with rfl | hd'
    · have hnil : (xs.map g).filter p = [] := by
        apply List.filter_eq_nil_iff.mpr
        intro b hb
        obtain ⟨y, hy, rfl⟩ := List.mem_map.mp hb
        rw [hp y (List.mem_cons_of_mem _ hy)]
        simp only [decide_eq_true_eq]
        exact fun e => (List.nodup_cons.mp hn).1 (e ▸ hy)
      rw [hp d (List.mem_cons_self _ _), hnil]
      simp
    · have hx : p (g x) = false := by
        rw [hp x (List.mem_cons_self _ _)]
        simp only [decide_eq_false_iff_not]
        exact fun e => (List.nodup_cons.mp hn).1 (e ▸ hd')
      rw [hx]
      simp only [Bool.false_eq_true, if_false]
      exact ih (List.nodup_cons.mp hn).2 hd'
        (fun y hy => hp y (List.mem_cons_of_mem _ hy))

/-- C6.  In the symbol graph built by `_get_ranked_tags`, for every
identifier that is both defined and referenced and every
(referencing file, defining file) pair, exactly one edge is added: its
weight is `multiplier(ident) * sqrt(reference count of that pair)`, where
the multiplier composes x10 for long multi-word identifiers, x0.1 for a
leading underscore, and x0.1 for identifiers defined by more than five
files, multiplicatively. -/
theorem graph_edge_unique_weight (input : List (String × List Tag))
    (ident r d : String)
    (hi : ident ∈ RepoMap.bothIdents input)
    (hr : r ∈ RepoMap.referencesOf input ident)
    (hd : d ∈ RepoMap.definesOf input ident) :
    (RepoMap.graphEdges input).filter
        (fun e => e.src == r && e.dst == d && e.ident == ident) =
      [RepoMap.Edge.mk r d ident
        (RepoMap.multiplier ident (RepoMap.definesOf input ident).length)
        ((RepoMap.referencesOf input ident).count r)] ∧
    (∀ e ∈ (RepoMap.graphEdges input).filter
        (fun e => e.src == r && e.dst == d && e.ident == ident),
      RepoMap.Edge.weight e =
        (RepoMap.multiplier ident (RepoMap.definesOf input ident).length : ℝ) *
          Real.sqrt ((RepoMap.referencesOf input ident).count r)) := by
  have hrefs_ne : ¬ (RepoMap.referencesOf input ident).isEmpty := by
    intro he
    rw [List.isEmpty_iff] at he
    rw [he] at hr
    cases hr
  have hmain : (RepoMap.graphEdges input).filter
      (fun e => e.src == r && e.dst == d && e.ident == ident) =
      [RepoMap.Edge.mk r d ident
        (RepoMap.multiplier ident (RepoMap.definesOf input ident).length)
        ((RepoMap.referencesOf input ident).count r)] := by
    unfold RepoMap.graphEdges
    rw [List.filter_append]
    simp only [filter_flatMap]
    have hself : (RepoMap.selfLoopIdents input).flatMap
        (fun i => ((RepoMap.definesOf input i).map (fun definer =>
          RepoMap.Edge.mk definer definer i (1 / 10) 1)).filter
          (fun e => e.src == r && e.dst == d && e.ident == ident)) = [] := by
      apply List.flatMap_eq_nil_iff.mpr
      intro i hi'
      apply List.filter_eq_nil_iff.mpr
      intro e he
      obtain ⟨f, _, rfl⟩ := List.mem_map.mp he
      simp only [Bool.and_eq_true, beq_iff_eq]
      rintro ⟨⟨-, -⟩, hident⟩
      rw [RepoMap.selfLoopIdents, List.mem_filter] at hi'
      rw [hident] at hi'
      exact hrefs_ne hi'.2
    rw [hself, List.nil_append]
    have houter : (RepoMap.bothIdents input).flatMap
        (fun i => (counterItems (RepoMap.referencesOf input i)).flatMap
          (fun rn => ((RepoMap.definesOf input i).map (fun definer =>
            RepoMap.Edge.mk rn.1 definer i
              (RepoMap.multiplier i (RepoMap.definesOf input i).length)
              rn.2)).filter
            (fun e => e.src == r && e.dst == d && e.ident == ident))) =
        (counterItems (RepoMap.referencesOf input ident)).flatMap
          (fun rn => ((RepoMap.definesOf input ident).map (fun definer =>
            RepoMap.Edge.mk rn.1 definer ident
              (RepoMap.multiplier ident (RepoMap.definesOf input ident).length)
              rn.2)).filter
            (fun e => e.src == r && e.dst == d && e.ident == ident)) := by
      apply flatMap_eq_of_unique
        ((nodup_pyDedup _).filter _) hi
      intro i hi' hne
      apply List.flatMap_eq_nil_iff.mpr
      intro rn _
      apply List.filter_eq_nil_iff.mpr
      intro e he
      obtain ⟨f, _, rfl⟩ := List.mem_map.mp he
      simp only [Bool.and_eq_true, beq_iff_eq]
      rintro ⟨⟨-, -⟩, hident⟩
      exact hne hident
    rw [houter]
    have hinner : (counterItems
        (RepoMap.referencesOf input ident)).flatMap
        (fun rn => ((RepoMap.definesOf input ident).map (fun definer =>
          RepoMap.Edge.mk rn.1 definer ident
            (RepoMap.multiplier ident (RepoMap.definesOf input ident).length)
            rn.2)).filter
          (fun e => e.src == r && e.dst == d && e.ident == ident)) =
        ((RepoMap.definesOf input ident).map (fun definer =>
          RepoMap.Edge.mk r definer ident
            (RepoMap.multiplier ident (RepoMap.definesOf input ident).length)
            ((RepoMap.referencesOf input ident).count r))).filter
          (fun e => e.src == r && e.dst == d && e.ident == ident) := by
      apply flatMap_eq_of_unique (a := (r, (RepoMap.referencesOf input ident).count r))
      · exact (nodup_pyDedup _).map
          (fun a b h => congrArg Prod.fst h)
      · exact List.mem_map.mpr ⟨r, mem_pyDedup.mpr hr, rfl⟩
      · intro rn hrn hne
        obtain ⟨x, hx, rfl⟩ := List.mem_map.mp hrn
        apply List.filter_eq_nil_iff.mpr
        intro e he
        obtain ⟨f, _, rfl⟩ := List.mem_map.mp he
        simp only [Bool.and_eq_true, beq_iff_eq]
        rintro ⟨⟨hsrc, -⟩, -⟩
        exact hne (by rw [hsrc])
    rw [hinner]
    apply map_filter_eq_singleton (nodup_pyDedup _) hd
    intro x _
    simp [beq_iff_eq, beq_eq_decide]
  refine ⟨hmain, ?_⟩
  intro e he
  rw [hmain] at he
  rw [List.mem_singleton] at he
  subst he
  rfl

/-- Witness for C6: one file defines `login`, another references it; the
graph contains exactly one corresponding edge and its weight is the
multiplier times the square root of the single reference. -/
theorem graph_edge_unique_weight_witness :
    ("login" ∈ RepoMap.bothIdents
      [("a.py", [Tag.mk "a.py" "/a.py" 1 "login" "def"]),
       ("m.py", [Tag.mk "m.py" "/m.py" 2 "login" "ref"])] ∧
     "m.py" ∈ RepoMap.referencesOf
      [("a.py", [Tag.mk "a.py" "/a.py" 1 "login" "def"]),
       ("m.py", [Tag.mk "m.py" "/m.py" 2 "login" "ref"])] "login" ∧
     "a.py" ∈ RepoMap.definesOf
      [("a.py", [Tag.mk "a.py" "/a.py" 1 "login" "def"]),
       ("m.py", [Tag.mk "m.py" "/m.py" 2 "login" "ref"])] "login") ∧
    ((RepoMap.graphEdges
      [("a.py", [Tag.mk "a.py" "/a.py" 1 "login" "def"]),
       ("m.py", [Tag.mk "m.py" "/m.py" 2 "login" "ref"])]).filter
        (fun e => e.src == "m.py" && e.dst == "a.py" && e.ident == "login") =
      [RepoMap.Edge.mk "m.py" "a.py" "login"
        (RepoMap.multiplier "login"
          (RepoMap.definesOf
            [("a.py", [Tag.mk "a.py" "/a.py" 1 "login" "def"]),
             ("m.py", [Tag.mk "m.py" "/m.py" 2 "login" "ref"])] "login").length)
        ((RepoMap.referencesOf
            [("a.py", [Tag.mk "a.py" "/a.py" 1 "login" "def"]),
             ("m.py", [Tag.mk "m.py" "/m.py" 2 "login" "ref"])] "login").count
          "m.py")] ∧
    (∀ e ∈ (RepoMap.graphEdges
      [("a.py", [Tag.mk "a.py" "/a.py" 1 "login" "def"]),
       ("m.py", [Tag.mk "m.py" "/m.py" 2 "login" "ref"])]).filter
        (fun e => e.src == "m.py" && e.dst == "a.py" && e.ident == "login"),
      RepoMap.Edge.weight e =
        (RepoMap.multiplier "login"
          (RepoMap.definesOf
            [("a.py", [Tag.mk "a.py" "/a.py" 1 "login" "def"]),
             ("m.py", [Tag.mk "m.py" "/m.py" 2 "login" "ref"])] "login").length
          : ℝ) *
          Real.sqrt ((RepoMap.referencesOf
            [("a.py", [Tag.mk "a.py" "/a.py" 1 "login" "def"]),
             ("m.py", [Tag.mk "m.py" "/m.py" 2 "login" "ref"])] "login").count
            "m.py"))) :=
  ⟨⟨by decide, by decide, by decide⟩,
   graph_edge_unique_weight
    [("a.py", [Tag.mk "a.py" "/a.py" 1 "login" "def"]),
     ("m.py", [Tag.mk "m.py" "/m.py" 2 "login" "ref"])]
    "login" "m.py" "a.py" (by decide) (by decide) (by decide)⟩

/-! ## Claim C1: the budget-fitting search -/

/-- Invariant of the binary-search loop: any returned tree is at most the
budget or within the 15% early-exit tolerance, provided the incoming best
tree already is. -/
theorem searchLoop_within_tolerance (tree : Int → String) (budget : Nat) :
    ∀ (fuel : Nat) (lo hi middle : Int) (best : Option String)
      (bestTokens : Nat),
      (∀ s, best = some s → estimate_tokens s ≤ budget ∨
        20 * ((estimate_tokens s : Int) - (budget : Int)).natAbs < 3 * budget) →
      ∀ s, RepoMap.searchLoop tree budget fuel lo hi middle best bestTokens =
          some s →
        estimate_tokens s ≤ budget ∨
          20 * ((estimate_tokens s : Int) - (budget : Int)).natAbs <
            3 * budget := by
  intro fuel
  induction fuel with
  | zero =>
    intro lo hi middle best bestTokens hbest s hs
    rw [RepoMap.searchLoop] at hs
    exact hbest s hs
  | succ fuel ih =>
    intro lo hi middle best bestTokens hbest s hs
    simp only [RepoMap.searchLoop] at hs
    by_cases hlo : hi < lo
    · rw [if_pos hlo] at hs
      exact hbest s hs
    · rw [if_neg hlo] at hs
      by_cases hpct : 20 * ((estimate_tokens (tree middle) : Int) -
          (budget : Int)).natAbs < 3 * budget
      · rw [if_pos hpct, if_pos (Or.inr hpct)] at hs
        have := Option.some.inj hs
        subst this
        exact Or.inr hpct
      · rw [if_neg hpct] at hs
        refine ih _ _ _ _ _ ?_ s hs
        intro s' hs'
        by_cases hcond : (estimate_tokens (tree middle) ≤ budget ∧
            bestTokens < estimate_tokens (tree middle)) ∨
            20 * ((estimate_tokens (tree middle) : Int) -
              (budget : Int)).natAbs < 3 * budget
        · rw [if_pos hcond] at hs'
          have := Option.some.inj hs'
          subst this
          rcases hcond with ⟨h1, -⟩ | h2
          · exact Or.inl h1
          · exact Or.inr h2
        · rw [if_neg hcond] at hs'
          exact hbest s' hs'

/-- C1 (amended).  For every positive budget, a map returned by the
budget-fitting search of `get_repo_map` has an estimated token count that is
at most the budget or within the 15% relative-error early-exit tolerance of
it; because of that tolerance the search may return a map over budget even
when some non-empty prefix of the ranked entries renders to at most the
budget (see the counterexample). -/
theorem get_repo_map_token_tolerance
    (rt : String → String → List Int → String)
    (ranked_tags : List RepoMap.RankedEntry) (max_map_tokens : Nat)
    (s : String)
    (h : RepoMap.get_repo_map rt ranked_tags max_map_tokens = some s) :
    estimate_tokens s ≤ max_map_tokens ∨
      20 * ((estimate_tokens s : Int) - (max_map_tokens : Int)).natAbs <
        3 * max_map_tokens := by
  simp only [RepoMap.get_repo_map] at h
  by_cases hz : max_map_tokens = 0
  · rw [if_pos hz] at h
    cases h
  · rw [if_neg hz] at h
    exact searchLoop_within_tolerance _ _ _ _ _ _ _ _
      (fun s' hs' => by cases hs') s h

/-- Witness for C1 (amended): one short bare-file entry against budget 1;
the returned map is exactly one token, within budget. -/
theorem get_repo_map_token_tolerance_witness :
    estimate_tokens "\nab.py\n" ≤ 1 ∨
      20 * ((estimate_tokens "\nab.py\n" : Int) - (1 : Int)).natAbs < 3 * 1 :=
  get_repo_map_token_tolerance (fun _ _ _ => "")
    [RepoMap.RankedEntry.fileOnly "ab.py"] 1 "\nab.py\n" (by decide)

set_option maxRecDepth 1000000 in
/-- C1 (counterexample).  Two bare-file entries with 100-character names
against a budget of 50 tokens: the initial probe renders both entries to 51
tokens, which is over budget but within the 15% tolerance, so the search
returns it immediately — although the non-empty one-entry prefix renders to
25 tokens, at most the budget.  The claim's guarantee that an over-budget
map is only returned when no non-empty prefix fits is therefore false. -/
theorem get_repo_map_over_budget_counterexample :
    RepoMap.get_repo_map (fun _ _ _ => "")
      [RepoMap.RankedEntry.fileOnly (String.mk (List.replicate 100 'a')),
       RepoMap.RankedEntry.fileOnly (String.mk (List.replicate 100 'b'))] 50 =
      some ("\n" ++ String.mk (List.replicate 100 'a') ++ "\n\n" ++
        String.mk (List.replicate 100 'b') ++ "\n") ∧
    50 < estimate_tokens ("\n" ++ String.mk (List.replicate 100 'a') ++
      "\n\n" ++ String.mk (List.replicate 100 'b') ++ "\n") ∧
    ([RepoMap.RankedEntry.fileOnly (String.mk (List.replicate 100 'a')),
      RepoMap.RankedEntry.fileOnly
        (String.mk (List.replicate 100 'b'))].take 1 ≠ []) ∧
    estimate_tokens (RepoMap._to_tree (fun _ _ _ => "")
      ([RepoMap.RankedEntry.fileOnly (String.mk (List.replicate 100 'a')),
        RepoMap.RankedEntry.fileOnly
          (String.mk (List.replicate 100 'b'))].take 1)) ≤ 50 :=
  ⟨by decide, by decide, by decide, by decide⟩
